import Mathlib

/-!
Verification of the chat-boost-asio repository: a length-prefixed text chat
protocol with a boost::asio server (`src/server/src/server.cpp`) and client
(`src/client/src/client.cpp`).  Wire bytes are modelled as natural numbers
(their ASCII codes).  The `ChatMessage` frame codec lives in `message.h`,
which is not among the given source files, so it is modelled from the spec;
everything else is a direct shallow embedding of the C++ sources.
-/

/-- Modelled from the spec: `ChatMessage::header_length`, the fixed width of
the decimal ASCII length prefix ("fixed constant (e.g. 4 bytes)").
`message.h` is not among the given sources; the classic value 4 is used. -/
def header_length : Nat := 4

/-- Modelled from the spec: `ChatMessage::max_body_length`, the fixed upper
bound on the body size shared by client and server.  `message.h` is not among
the given sources; the classic value 512 is used. -/
def max_body_length : Nat := 512

/-- A chat message, identified by its body bytes (ASCII codes as `Nat`).
In the C++ `ChatMessage` the body occupies `data_ + header_length`. -/
structure ChatMessage where
  body : List Nat
deriving DecidableEq, Repr

/-- `body_length` of a message: the number of body bytes. -/
def ChatMessage.body_length (m : ChatMessage) : Nat := m.body.length

/-- Decimal digit bytes of `n`, most significant first, via repeated division
by 10 (fuel-indexed so that it is structurally recursive; `n + 1` steps always
suffice since the digit count of `n` is at most `n + 1`). -/
def natDigitBytesAux : Nat → Nat → List Nat
  | 0, _ => []
  | fuel + 1, n =>
      if n < 10 then [48 + n]
      else natDigitBytesAux fuel (n / 10) ++ [48 + n % 10]

/-- Decimal ASCII digit bytes of `n`, most significant first. -/
def natDigitBytes (n : Nat) : List Nat := natDigitBytesAux (n + 1) n

/-- Modelled from the spec: `ChatMessage::encode_header` renders
`body_length` as decimal text, left-padded with spaces (byte 32) to exactly
`header_length` characters. -/
def encode_header (b : Nat) : List Nat :=
  let ds := natDigitBytes b
  List.replicate (header_length - ds.length) 32 ++ ds

/-- Is byte `b` an ASCII decimal digit? -/
def isDigitByte (b : Nat) : Bool := decide (48 ≤ b ∧ b ≤ 57)

/-- The header bytes with the leading space padding removed. -/
def headerDigits (h : List Nat) : List Nat := h.dropWhile (fun b => b == 32)

/-- A header is numeric when, after stripping the leading padding, it is a
nonempty run of decimal digits. -/
def isNumericHeader (h : List Nat) : Bool :=
  !(headerDigits h).isEmpty && (headerDigits h).all isDigitByte

/-- Value of a run of decimal digit bytes, most significant first. -/
def parseDigits (l : List Nat) : Nat :=
  l.foldl (fun acc b => acc * 10 + (b - 48)) 0

/-- Modelled from the spec: `ChatMessage::decode_header` parses the header
text as a non-negative integer and fails (returning `none`, the connection-
invalidating result) if the header is non-numeric or the parsed value exceeds
`max_body_length`. -/
def decode_header (h : List Nat) : Option Nat :=
  if isNumericHeader h then
    let v := parseDigits (headerDigits h)
    if v ≤ max_body_length then some v else none
  else none

set_option maxRecDepth 100000 in
lemma decode_encode_all :
    ∀ b : Nat, b ≤ max_body_length → decode_header (encode_header b) = some b := by
  decide

/-- The history bound `ChatRoom::max_recent_msgs` (`enum { max_recent_msgs = 100 }`,
server.cpp line 82). -/
def max_recent_msgs : Nat := 100

/-- The eviction loop of `ChatRoom::deliver` (server.cpp lines 73-74):
`while (recent_msgs_.size() > max_recent_msgs) recent_msgs_.pop_front();`. -/
def trimHistory (l : List ChatMessage) : List ChatMessage :=
  if l.length > max_recent_msgs then trimHistory l.tail else l
termination_by l.length
decreasing_by
  simp only [List.length_tail]
  omega

/-- The server-side broadcast hub `ChatRoom` (server.cpp lines 52-84).
Participants (`std::set` of session pointers) are modelled as a `Finset` of
session identities; `recent_msgs_` is the bounded history deque. -/
structure ChatRoom where
  participants : Finset Nat
  recent_msgs : List ChatMessage
deriving DecidableEq

/-- `ChatRoom::join` (server.cpp lines 55-60): inserts the participant, then
delivers every message of `recent_msgs_` to that participant, in order.  The
second component is the list of delivery events (recipient, message) the call
performs, in order. -/
def ChatRoom.join (r : ChatRoom) (p : Nat) : ChatRoom × List (Nat × ChatMessage) :=
  ({ participants := insert p r.participants, recent_msgs := r.recent_msgs },
   r.recent_msgs.map (fun m => (p, m)))

/-- `ChatRoom::leave` (server.cpp lines 62-65): erases the participant. -/
def ChatRoom.leave (r : ChatRoom) (p : Nat) : ChatRoom :=
  { r with participants := r.participants.erase p }

/-- `ChatRoom::deliver` (server.cpp lines 67-78): pushes the message onto
`recent_msgs_`, evicts from the front while over capacity, then delivers the
message to every participant in the set (in the set's iteration order,
modelled as ascending identity order).  The second component is the list of
delivery events performed. -/
def ChatRoom.deliver (r : ChatRoom) (m : ChatMessage) : ChatRoom × List (Nat × ChatMessage) :=
  ({ participants := r.participants,
     recent_msgs := trimHistory (r.recent_msgs ++ [m]) },
   (r.participants.sort (· ≤ ·)).map (fun q => (q, m)))

/-- Room operations, for traces of calls into one `ChatRoom`. -/
inductive RoomOp where
  | join (p : Nat)
  | leave (p : Nat)
  | deliver (m : ChatMessage)
deriving DecidableEq

/-- One room call together with the delivery events it performs. -/
def ChatRoom.applyOp (r : ChatRoom) : RoomOp → ChatRoom × List (Nat × ChatMessage)
  | .join p => ChatRoom.join r p
  | .leave p => (ChatRoom.leave r p, [])
  | .deliver m => ChatRoom.deliver r m

/-- Run a sequence of room calls, accumulating the delivery events in the
order they are performed. -/
def ChatRoom.run (r : ChatRoom) : List RoomOp → ChatRoom × List (Nat × ChatMessage)
  | [] => (r, [])
  | op :: ops =>
      let s := ChatRoom.applyOp r op
      let t := ChatRoom.run s.1 ops
      (t.1, s.2 ++ t.2)

/-- The messages delivered to participant `p`, in order, within a list of
delivery events. -/
def eventsTo (p : Nat) (evs : List (Nat × ChatMessage)) : List ChatMessage :=
  (evs.filter (fun e => e.1 == p)).map Prod.snd

/-- Deliver a whole list of messages to the room, one `ChatRoom::deliver`
call per message. -/
def deliverAll (r : ChatRoom) : List ChatMessage → ChatRoom
  | [] => r
  | m :: ms => deliverAll (ChatRoom.deliver r m).1 ms

/-- The room a freshly constructed `ChatServer` holds: no participants, empty
history. -/
def emptyRoom : ChatRoom := ⟨∅, []⟩

lemma trimHistory_eq_drop (l : List ChatMessage) :
    trimHistory l = l.drop (l.length - max_recent_msgs) := by
  induction l with
  | nil => simp [trimHistory]
  | cons a t ih =>
      rw [trimHistory]
      by_cases h : (a :: t).length > max_recent_msgs
      · rw [if_pos h]
        simp only [List.tail_cons, List.length_cons] at *
        rw [ih]
        have hk : t.length + 1 - max_recent_msgs = (t.length - max_recent_msgs) + 1 := by
          omega
        rw [hk, List.drop_succ_cons]
      · rw [if_neg h]
        simp only [List.length_cons] at h
        have : t.length + 1 - max_recent_msgs = 0 := by omega
        simp [this]

lemma trimHistory_length_le (l : List ChatMessage) :
    (trimHistory l).length ≤ max_recent_msgs := by
  rw [trimHistory_eq_drop, List.length_drop]
  omega

lemma deliver_recent_msgs (r : ChatRoom) (m : ChatMessage) :
    (ChatRoom.deliver r m).1.recent_msgs = trimHistory (r.recent_msgs ++ [m]) := rfl

lemma deliver_length_le (r : ChatRoom) (m : ChatMessage) :
    ((ChatRoom.deliver r m).1.recent_msgs).length ≤ max_recent_msgs := by
  rw [deliver_recent_msgs]
  exact trimHistory_length_le _

lemma deliverAll_recent (ms : List ChatMessage) :
    ∀ r : ChatRoom, r.recent_msgs.length ≤ max_recent_msgs →
      (deliverAll r ms).recent_msgs
        = (r.recent_msgs ++ ms).drop (r.recent_msgs.length + ms.length - max_recent_msgs) := by
  induction ms with
  | nil =>
      intro r hr
      have h0 : r.recent_msgs.length - max_recent_msgs = 0 := by omega
      simp [deliverAll, h0]
  | cons m ms ih =>
      intro r hr
      have hstep : (deliverAll r (m :: ms)) = deliverAll (ChatRoom.deliver r m).1 ms := rfl
      set r' := (ChatRoom.deliver r m).1 with hr'
      have hrec : r'.recent_msgs = (r.recent_msgs ++ [m]).drop
          (r.recent_msgs.length + 1 - max_recent_msgs) := by
        rw [hr', deliver_recent_msgs, trimHistory_eq_drop]
        simp
      have hlen' : r'.recent_msgs.length ≤ max_recent_msgs := by
        rw [hr', deliver_recent_msgs]
        exact trimHistory_length_le _
      rw [hstep, ih r' hlen', hrec]
      set L := r.recent_msgs.length with hL
      set k := L + 1 - max_recent_msgs with hk
      have hkle : k ≤ (r.recent_msgs ++ [m]).length := by
        simp only [List.length_append, List.length_cons, List.length_nil, ← hL]
        omega
      have hassoc : r.recent_msgs ++ m :: ms = (r.recent_msgs ++ [m]) ++ ms := by
        simp
      rw [hassoc, ← List.drop_append_of_le_length hkle, List.drop_drop]
      congr 1
      simp only [List.length_drop, List.length_append, List.length_cons, List.length_nil, ← hL]
      omega

lemma eventsTo_append (p : Nat) (a b : List (Nat × ChatMessage)) :
    eventsTo p (a ++ b) = eventsTo p a ++ eventsTo p b := by
  simp [eventsTo]

lemma eventsTo_map_self (p : Nat) (l : List ChatMessage) :
    eventsTo p (l.map fun m => (p, m)) = l := by
  induction l with
  | nil => simp [eventsTo]
  | cons m t ih => simpa [eventsTo] using ih

/-- The phases of a connection's inbound read cursor: reading a header,
reading a body of known length, or closed.  `closed` is terminal for the
read side only: no further read is ever issued from it, while the socket
itself closes later, when the session object is destroyed after its last
pending asynchronous operation completes. -/
inductive SessionState where
  | awaitHeader
  | awaitBody (n : Nat)
  | closed
deriving DecidableEq

/-- The externally visible actions a `ChatSession`'s read side performs:
joining/leaving its room, issuing an asynchronous read of the header or of
`n` body bytes, and relaying a completed message to `ChatRoom::deliver`. -/
inductive SAction where
  | joinRoomAct
  | issueReadHeader
  | issueReadBody (n : Nat)
  | deliverRoom (m : ChatMessage)
  | leaveRoomAct
deriving DecidableEq

/-- `ChatSession::start` (server.cpp lines 104-112): join the room first,
then issue the first header read. -/
def sessionStart : List SAction := [SAction.joinRoomAct, SAction.issueReadHeader]

/-- `ChatSession::handle_read_header` (server.cpp lines 128-141): on a clean
read whose header decodes, issue a body read of the decoded length; otherwise
the handler only calls `room_.leave` — it issues no further read, performs no
socket close and does not touch `write_msgs_`. -/
def handle_read_header (error : Bool) (hdr : List Nat) : SessionState × List SAction :=
  if error = false then
    match decode_header hdr with
    | some n => (SessionState.awaitBody n, [SAction.issueReadBody n])
    | none => (SessionState.closed, [SAction.leaveRoomAct])
  else (SessionState.closed, [SAction.leaveRoomAct])

/-- `ChatSession::handle_read_body` (server.cpp lines 143-157): on a clean
read, relay the message to the room and issue the next header read; otherwise
the handler only calls `room_.leave` — it issues no further read, performs no
socket close and does not touch `write_msgs_`. -/
def handle_read_body (error : Bool) (m : ChatMessage) : SessionState × List SAction :=
  if error = false then
    (SessionState.awaitHeader, [SAction.deliverRoom m, SAction.issueReadHeader])
  else (SessionState.closed, [SAction.leaveRoomAct])

/-- A read-completion event: the header read or the body read finishing,
with its error flag and the bytes / message it produced. -/
inductive SEvent where
  | hdr (error : Bool) (bytes : List Nat)
  | body (error : Bool) (m : ChatMessage)
deriving DecidableEq

/-- Dispatch one completion event against the session's read cursor.  A
closed session has no outstanding read, so no handler runs and no action is
performed; a mismatched completion cannot occur and is a no-op. -/
def sessionStep : SessionState → SEvent → SessionState × List SAction
  | SessionState.closed, _ => (SessionState.closed, [])
  | SessionState.awaitHeader, SEvent.hdr e b => handle_read_header e b
  | SessionState.awaitBody _, SEvent.body e m => handle_read_body e m
  | s, _ => (s, [])

/-- Run a sequence of completion events, accumulating the actions. -/
def sessionRun (s : SessionState) : List SEvent → SessionState × List SAction
  | [] => (s, [])
  | e :: es =>
      let st := sessionStep s e
      let rest := sessionRun st.1 es
      (rest.1, st.2 ++ rest.2)

lemma sessionRun_closed (evs : List SEvent) :
    sessionRun SessionState.closed evs = (SessionState.closed, []) := by
  induction evs with
  | nil => rfl
  | cons e es ih => simp [sessionRun, sessionStep, ih]

/-- The per-connection outbound queue together with the number of socket
send operations currently in flight and the frames fully handed to the
network so far.  `write_msgs` is `ChatSession::write_msgs_` (server.cpp line
183) and equally `ChatClient::write_msgs_` (client.cpp line 140); `wire` is
the prefix of frames whose `async_write` completed successfully. -/
structure WriterState where
  write_msgs : List ChatMessage
  inflight : Nat
  wire : List ChatMessage
deriving DecidableEq

/-- Events on one connection's outbound side: a frame being enqueued
(`ChatSession::deliver` / `ChatClient::do_write`) or an in-flight send
completing successfully (`handle_write` with no error). -/
inductive WEvent where
  | enq (m : ChatMessage)
  | writeOk
deriving DecidableEq

/-- One outbound step.  `enq m` is `ChatSession::deliver` (server.cpp lines
114-126) and `ChatClient::do_write` (client.cpp lines 97-109): record whether
a write is in progress (queue nonempty), push the frame, and start an
`async_write` of the head only if none was in progress.  `writeOk` is the
success branch of `handle_write` (server.cpp lines 159-177, client.cpp lines
111-129): the completed head frame reaches the wire, is popped, and a write
of the new head starts if the queue is nonempty.  A completion with no send
in flight (or an impossible empty queue) cannot occur and yields `none`. -/
def wstep (s : WriterState) : WEvent → Option WriterState
  | WEvent.enq m =>
      let write_in_progress := !s.write_msgs.isEmpty
      some { write_msgs := s.write_msgs ++ [m],
             inflight := if write_in_progress then s.inflight else s.inflight + 1,
             wire := s.wire }
  | WEvent.writeOk =>
      if s.inflight = 0 then none
      else
        match s.write_msgs with
        | [] => none
        | msg :: rest =>
            some { write_msgs := rest,
                   inflight := (s.inflight - 1) + (if rest.isEmpty then 0 else 1),
                   wire := s.wire ++ [msg] }

/-- Run a sequence of outbound events. -/
def wrun (s : WriterState) : List WEvent → Option WriterState
  | [] => some s
  | e :: es =>
      match wstep s e with
      | some s1 => wrun s1 es
      | none => none

/-- The frames enqueued by a sequence of outbound events, in order. -/
def enqueuedOf (evs : List WEvent) : List ChatMessage :=
  evs.filterMap (fun e => match e with
    | WEvent.enq m => some m
    | WEvent.writeOk => none)

/-- A connection's outbound side starts with an empty queue, no send in
flight, and nothing on the wire. -/
def initWriter : WriterState := ⟨[], 0, []⟩

lemma wrun_inv (evs : List WEvent) :
    ∀ s s' : WriterState,
      s.inflight = (if s.write_msgs.isEmpty then 0 else 1) →
      wrun s evs = some s' →
      s'.inflight = (if s'.write_msgs.isEmpty then 0 else 1) ∧
        s'.wire ++ s'.write_msgs = s.wire ++ s.write_msgs ++ enqueuedOf evs := by
  induction evs with
  | nil =>
      intro s s' hinv h
      simp only [wrun, Option.some.injEq] at h
      subst h
      simp [enqueuedOf, hinv]
  | cons e es ih =>
      intro s s' hinv h
      cases e with
      | enq m =>
          simp only [wrun, wstep] at h
          have hinv1 :
              (WriterState.mk (s.write_msgs ++ [m])
                  (if !s.write_msgs.isEmpty then s.inflight else s.inflight + 1)
                  s.wire).inflight
                = (if (WriterState.mk (s.write_msgs ++ [m])
                    (if !s.write_msgs.isEmpty then s.inflight else s.inflight + 1)
                    s.wire).write_msgs.isEmpty then 0 else 1) := by
            cases hq : s.write_msgs with
            | nil => simp [hq] at hinv; simp [hinv]
            | cons a t => simp [hq] at hinv; simp [hinv]
          rcases ih _ s' hinv1 h with ⟨h1, h2⟩
          refine ⟨h1, ?_⟩
          rw [h2]
          simp [enqueuedOf]
      | writeOk =>
          simp only [wrun, wstep] at h
          by_cases h0 : s.inflight = 0
          · simp [h0] at h
          · rw [if_neg h0] at h
            cases hq : s.write_msgs with
            | nil =>
                rw [hq] at h
                simp at h
            | cons msg rest =>
                rw [hq] at h
                simp only [] at h
                have hone : s.inflight = 1 := by
                  rw [hq] at hinv
                  simpa using hinv
                have hinv1 :
                    (WriterState.mk rest
                        ((s.inflight - 1) + (if rest.isEmpty then 0 else 1))
                        (s.wire ++ [msg])).inflight
                      = (if (WriterState.mk rest
                          ((s.inflight - 1) + (if rest.isEmpty then 0 else 1))
                          (s.wire ++ [msg])).write_msgs.isEmpty then 0 else 1) := by
                  by_cases hr : rest.isEmpty <;> simp [hr, hone]
                rcases ih _ s' hinv1 h with ⟨h1, h2⟩
                refine ⟨h1, ?_⟩
                rw [h2]
                simp [enqueuedOf, hq]

/-- The effect of a read failure on the session's outbound side: none.  The
error branches of `handle_read_header` / `handle_read_body` (server.cpp lines
137-140 and 153-156) call only `room_.leave`; `write_msgs_` and the in-flight
`async_write` — whose handler keeps the session alive via
`shared_from_this()` — are untouched. -/
def readFailWriter (w : WriterState) : WriterState := w

lemma wrun_drain :
    ∀ (q : List ChatMessage) (w : WriterState), w.write_msgs = q →
      w.inflight = (if w.write_msgs.isEmpty then 0 else 1) →
      wrun w (List.replicate q.length WEvent.writeOk) = some ⟨[], 0, w.wire ++ q⟩ := by
  intro q
  induction q with
  | nil =>
      intro w hq hinv
      have h0 : w.inflight = 0 := by
        rw [hq] at hinv
        simpa using hinv
      cases w with
      | mk wm infl wi =>
          simp only [List.length_nil, List.replicate, wrun]
          simp only [] at hq h0
          simp [hq, h0]
  | cons msg rest ih =>
      intro w hq hinv
      have hone : w.inflight = 1 := by
        rw [hq] at hinv
        simpa [hq] using hinv
      have hstep : wstep w WEvent.writeOk
          = some ⟨rest, (if rest.isEmpty then 0 else 1), w.wire ++ [msg]⟩ := by
        simp [wstep, hq, hone]
      have hinv1 : (WriterState.mk rest (if rest.isEmpty then 0 else 1)
          (w.wire ++ [msg])).inflight
            = (if (WriterState.mk rest (if rest.isEmpty then 0 else 1)
                (w.wire ++ [msg])).write_msgs.isEmpty then 0 else 1) := rfl
      have hrec := ih ⟨rest, (if rest.isEmpty then 0 else 1), w.wire ++ [msg]⟩ rfl hinv1
      simp only [List.length_cons, List.replicate_succ, wrun, hstep]
      rw [hrec]
      simp

/-- A server with one shared room and the outbound queues of its sessions,
indexed by participant identity.  This ties `ChatRoom::deliver`'s fan-out to
each `ChatSession::deliver` enqueue. -/
structure ChatSystem where
  room : ChatRoom
  writers : Nat → List ChatMessage

/-- A room-level broadcast as it acts on the whole server: the room's
`deliver` runs, and every participant's session enqueues the message
(`ChatSession::deliver`, the fan-out of server.cpp lines 76-77). -/
def systemDeliver (sys : ChatSystem) (m : ChatMessage) : ChatSystem :=
  { room := (ChatRoom.deliver sys.room m).1,
    writers := fun q =>
      if q ∈ sys.room.participants then sys.writers q ++ [m] else sys.writers q }

/-- Teardown of one session after a failed *write*: `handle_write`'s error
branch (server.cpp lines 173-176) calls `room_.leave(shared_from_this())`
and issues no further `async_write`, so the remaining queued frames never
reach the wire and are destroyed with the session (unsent frames dropped,
not persisted).  No other session is touched.  A *read* failure behaves
differently — the write chain keeps draining; see `readFailWriter` and
`wrun_drain`. -/
def sessionTeardown (sys : ChatSystem) (p : Nat) : ChatSystem :=
  { room := ChatRoom.leave sys.room p,
    writers := fun q => if q = p then [] else sys.writers q }

/-- One `ChatServer` (server.cpp lines 190-224): it owns its acceptor's port
and exactly one `ChatRoom` member `room_`; `roomId` identifies that room. -/
structure ChatServerM where
  port : Nat
  roomId : Nat
deriving DecidableEq

/-- The server `main` (server.cpp lines 235-263): one `ChatServer` is
constructed per port argument, each owning its own distinct `ChatRoom`. -/
def serverMain (ports : List Nat) : List ChatServerM :=
  ((List.range ports.length).zip ports).map (fun pr => ⟨pr.2, pr.1⟩)

/-- Number of `ChatRoom` instances alive in a server process started with the
given port arguments: each `ChatServer` owns exactly one. -/
def roomsInProcess (ports : List Nat) : Nat := (serverMain ports).length

/-- `ChatServer::start_accept` / `handle_accept` (server.cpp lines 201-218):
every accepted connection becomes a `ChatSession(io_service_, room_)`, i.e.
it is bound to that server's single room, whatever the connection index. -/
def acceptedSessionRoom (sv : ChatServerM) (_connIdx : Nat) : Nat := sv.roomId

/-- The client console read (client.cpp lines 166-167):
`cin.getline(line, max_body_length + 1)` stores at most `max_body_length`
characters of the input line into the buffer. -/
def clientReadLine (input : List Nat) : List Nat := input.take max_body_length

/-- The client console loop body (client.cpp lines 170-174): build a message
whose body is the stored line (`body_length(strlen(line))`, `memcpy`), then
`encode_header` and send. -/
def clientBuildMsg (input : List Nat) : ChatMessage := ⟨clientReadLine input⟩
/-- Concrete message used by several witnesses. -/
def wmsg : ChatMessage := ⟨[104, 105]⟩

/-- Concrete room with one history entry and no participants. -/
def w1room : ChatRoom := ⟨∅, [wmsg]⟩

/-- Concrete room with participants 1 and 2 and empty history. -/
def w2room : ChatRoom := ⟨{1, 2}, []⟩

/-- C1: for every room state and participant `p`, `join(p)` adds `p` to the
participant set and delivers the entire current `recent_msgs_` to `p` only,
in insertion order, before any event of any subsequent room call reaches `p`;
and `ChatSession::start` performs the join before issuing its first read. -/
theorem C1_join_replays_history (r : ChatRoom) (p : Nat) (ops : List RoomOp) :
    eventsTo p (ChatRoom.run r (RoomOp.join p :: ops)).2
      = r.recent_msgs ++ eventsTo p (ChatRoom.run (ChatRoom.join r p).1 ops).2
    ∧ (ChatRoom.join r p).1.participants = insert p r.participants
    ∧ (∀ e ∈ (ChatRoom.join r p).2, e.1 = p)
    ∧ sessionStart = [SAction.joinRoomAct, SAction.issueReadHeader] := by
  refine ⟨?_, rfl, ?_, rfl⟩
  · show eventsTo p ((ChatRoom.join r p).2 ++ (ChatRoom.run (ChatRoom.join r p).1 ops).2) = _
    rw [eventsTo_append]
    congr 1
    exact eventsTo_map_self p r.recent_msgs
  · intro e he
    simp only [ChatRoom.join, List.mem_map] at he
    rcases he with ⟨m, _, rfl⟩
    rfl

/-- C1 witness: in a room whose history is `[wmsg]`, the single delivery
event of `join 5` targets participant 5. -/
theorem C1_witness : ((5 : Nat), wmsg).1 = 5 :=
  (C1_join_replays_history w1room 5 []).2.2.1 (5, wmsg) (by decide)

/-- C2: every `ChatRoom::deliver` leaves `recent_msgs_` with at most 100
entries, and after delivering a list `ms` of messages to a fresh room the
history is exactly the most recent 100 of `ms`, oldest evicted first (for
`ms.length ≤ 100` the drop count is 0 and the history is all of `ms`). -/
theorem C2_history_bounded (r : ChatRoom) (m : ChatMessage) (ms : List ChatMessage) :
    ((ChatRoom.deliver r m).1.recent_msgs).length ≤ max_recent_msgs
    ∧ (deliverAll emptyRoom ms).recent_msgs = ms.drop (ms.length - max_recent_msgs) := by
  refine ⟨deliver_length_le r m, ?_⟩
  have h := deliverAll_recent ms emptyRoom (by simp [emptyRoom])
  simpa [emptyRoom] using h

/-- C3: `ChatRoom::deliver` appends the message to `recent_msgs_` (it becomes
the newest entry) and enqueues it to exactly the current participants: every
participant — including the sender, if joined — receives it, nobody else
does, and no participant is skipped (one event per participant). -/
theorem C3_deliver_broadcasts (r : ChatRoom) (m : ChatMessage) :
    ((ChatRoom.deliver r m).1.recent_msgs).getLast? = some m
    ∧ (∀ p : Nat, (p, m) ∈ (ChatRoom.deliver r m).2 ↔ p ∈ r.participants)
    ∧ (∀ e ∈ (ChatRoom.deliver r m).2, e.2 = m)
    ∧ (ChatRoom.deliver r m).2.length = r.participants.card := by
  refine ⟨?_, ?_, ?_, ?_⟩
  · rw [deliver_recent_msgs, trimHistory_eq_drop]
    have hk : (r.recent_msgs ++ [m]).length - max_recent_msgs ≤ r.recent_msgs.length := by
      simp only [List.length_append, List.length_cons, List.length_nil, max_recent_msgs]
      omega
    rw [List.drop_append_of_le_length hk, List.getLast?_concat]
  · intro p
    simp [ChatRoom.deliver, List.mem_map, Finset.mem_sort]
  · intro e he
    simp only [ChatRoom.deliver, List.mem_map] at he
    rcases he with ⟨q, _, rfl⟩
    rfl
  · simp [ChatRoom.deliver, List.length_map, Finset.length_sort]

/-- C3 witness: with participant set `{1, 2}`, the broadcast of `wmsg`
contains the event for participant 2, and its payload is `wmsg`. -/
theorem C3_witness : ((2 : Nat), wmsg).2 = wmsg :=
  (C3_deliver_broadcasts w2room wmsg).2.2.1 (2, wmsg)
    (((C3_deliver_broadcasts w2room wmsg).2.1 2).mpr (by decide))
/-- C4: on any valid sequence of outbound events from a fresh connection, at
most one send is in flight at any time (and exactly one iff the queue is
nonempty, since the head is being sent); the frames on the wire followed by
the still-queued frames are exactly the enqueued frames in enqueue order, so
the success path neither reorders, duplicates nor drops, the head is popped
only on send success, and a success with a nonempty remainder keeps a send in
flight for the new head. -/
theorem C4_write_queue_fifo (evs : List WEvent) (s : WriterState)
    (h : wrun initWriter evs = some s) :
    s.inflight ≤ 1
    ∧ s.inflight = (if s.write_msgs.isEmpty then 0 else 1)
    ∧ s.wire ++ s.write_msgs = enqueuedOf evs := by
  have hinv : initWriter.inflight = (if initWriter.write_msgs.isEmpty then 0 else 1) := rfl
  rcases wrun_inv evs initWriter s hinv h with ⟨h1, h2⟩
  refine ⟨?_, h1, ?_⟩
  · rw [h1]
    split <;> omega
  · simpa [initWriter] using h2

/-- Concrete outbound trace: enqueue two frames, first send completes. -/
def wEvs : List WEvent := [WEvent.enq ⟨[97]⟩, WEvent.enq ⟨[98]⟩, WEvent.writeOk]

/-- The outbound state the trace `wEvs` reaches. -/
def wEnd : WriterState := ⟨[⟨[98]⟩], 1, [⟨[97]⟩]⟩

/-- C4 witness: the concrete trace `wEvs` is a run, and the theorem applies
to it: one send in flight, wire plus queue equals the enqueue order. -/
theorem C4_witness :
    wEnd.inflight ≤ 1
    ∧ wEnd.inflight = (if wEnd.write_msgs.isEmpty then 0 else 1)
    ∧ wEnd.wire ++ wEnd.write_msgs = enqueuedOf wEvs :=
  C4_write_queue_fifo wEvs wEnd (by decide)

/-- C5: when a write to participant `p` fails during the broadcast of `m`,
only `p`'s session is torn down: every other participant `q` keeps its
membership and still has `m` enqueued (its queue is exactly as the broadcast
left it), `p` alone has left the room, and the room's history still records
`m` — the failure is not a failure of `deliver` itself. -/
theorem C5_write_failure_local (sys : ChatSystem) (m : ChatMessage) (p q : Nat)
    (hq : q ∈ sys.room.participants) (hne : q ≠ p) :
    (sessionTeardown (systemDeliver sys m) p).writers q = sys.writers q ++ [m]
    ∧ m ∈ (sessionTeardown (systemDeliver sys m) p).writers q
    ∧ q ∈ (sessionTeardown (systemDeliver sys m) p).room.participants
    ∧ p ∉ (sessionTeardown (systemDeliver sys m) p).room.participants
    ∧ (sessionTeardown (systemDeliver sys m) p).room.recent_msgs
        = (ChatRoom.deliver sys.room m).1.recent_msgs := by
  refine ⟨?_, ?_, ?_, ?_, rfl⟩
  · simp [sessionTeardown, systemDeliver, hne, hq]
  · simp [sessionTeardown, systemDeliver, hne, hq]
  · simp [sessionTeardown, systemDeliver, ChatRoom.leave, ChatRoom.deliver,
      Finset.mem_erase, hne, hq]
  · simp [sessionTeardown, ChatRoom.leave]

/-- Concrete two-participant system with empty queues. -/
def wsys : ChatSystem := ⟨⟨{1, 2}, []⟩, fun _ => []⟩

/-- C5 witness: in the two-participant system, after broadcasting `wmsg` and
tearing down participant 1 on its write failure, participant 2's queue is
exactly the broadcast enqueue. -/
theorem C5_witness :
    (sessionTeardown (systemDeliver wsys wmsg) 1).writers 2 = wsys.writers 2 ++ [wmsg] :=
  (C5_write_failure_local wsys wmsg 1 2 (by decide) (by decide)).1

/-- C6 counterexample: the claim's "discards its outstanding Outbound Queue"
(and the socket close as part of the transition) fails on the code.  On a
failed header read the handler performs only the room leave — no close, no
queue discard — and with `wmsg` outstanding (one send in flight) the
subsequent `handle_write` completion pops and transmits it: the frame reaches
the network (`wire = [wmsg] ≠ []`) instead of being dropped. -/
theorem C6_counterexample :
    handle_read_header true [] = (SessionState.closed, [SAction.leaveRoomAct])
    ∧ wrun (readFailWriter ⟨[wmsg], 1, []⟩) [WEvent.writeOk]
        = some ⟨[], 0, [wmsg]⟩
    ∧ ([wmsg] : List ChatMessage) ≠ [] := by
  decide

/-- C6 amended: on any read failure or on a header that fails to decode, the
server session stops reading: the handler leaves the Room (a no-op if not
joined) and issues no further read (no retry of a failed read); the body-read
handler does the same on error; a closed read side performs no actions on any
later events.  The outstanding Outbound Queue is *not* discarded:
`handle_write` keeps transmitting unconditionally, so from any consistent
outbound state every queued frame still drains to the network, and the socket
closes only when the session object is destroyed after its last pending
operation completes. -/
theorem C6_read_failure_leaves (error : Bool) (hdr : List Nat)
    (h : error = true ∨ decode_header hdr = none) :
    handle_read_header error hdr = (SessionState.closed, [SAction.leaveRoomAct])
    ∧ (∀ m, handle_read_body true m = (SessionState.closed, [SAction.leaveRoomAct]))
    ∧ (∀ evs, sessionRun SessionState.closed evs = (SessionState.closed, []))
    ∧ (∀ (r : ChatRoom) (p : Nat), p ∉ r.participants → ChatRoom.leave r p = r)
    ∧ (∀ (q : List ChatMessage) (w : WriterState), w.write_msgs = q →
        w.inflight = (if w.write_msgs.isEmpty then 0 else 1) →
        wrun (readFailWriter w) (List.replicate q.length WEvent.writeOk)
          = some ⟨[], 0, w.wire ++ q⟩) := by
  have hmain : handle_read_header error hdr
      = (SessionState.closed, [SAction.leaveRoomAct]) := by
    rcases h with he | hd
    · subst he
      simp [handle_read_header]
    · cases error
      · simp [handle_read_header, hd]
      · simp [handle_read_header]
  refine ⟨hmain, ?_, sessionRun_closed, ?_, ?_⟩
  · intro m
    simp [handle_read_body]
  · intro r p hp
    unfold ChatRoom.leave
    rw [Finset.erase_eq_of_not_mem hp]
  · intro q w hq hinv
    exact wrun_drain q w hq hinv

/-- C6 witness: a header that fails to decode (the single byte 65, a letter)
makes the session leave the room and stop reading. -/
theorem C6_witness :
    handle_read_header false [65] = (SessionState.closed, [SAction.leaveRoomAct]) :=
  (C6_read_failure_leaves false [65] (Or.inr (by decide))).1

/-- C7: the codec round-trips every admissible body length (`decode_header ∘
encode_header = some` on `0 ≤ b ≤ max_body_length`), every successful decode
is of a numeric header and returns a value within the bound, and
`decode_header` fails on any non-numeric header and on any header whose
parsed value exceeds `max_body_length`. -/
theorem C7_codec_roundtrip :
    (∀ b : Nat, b ≤ max_body_length → decode_header (encode_header b) = some b)
    ∧ (∀ (h : List Nat) (v : Nat), decode_header h = some v →
        isNumericHeader h = true ∧ v ≤ max_body_length)
    ∧ (∀ h : List Nat, isNumericHeader h = false → decode_header h = none)
    ∧ (∀ h : List Nat, max_body_length < parseDigits (headerDigits h) →
        decode_header h = none) := by
  refine ⟨decode_encode_all, ?_, ?_, ?_⟩
  · intro h v hv
    by_cases hn : isNumericHeader h
    · by_cases hle : parseDigits (headerDigits h) ≤ max_body_length
      · refine ⟨hn, ?_⟩
        have hs : some (parseDigits (headerDigits h)) = some v := by
          simpa [decode_header, hn, hle] using hv
        obtain rfl : parseDigits (headerDigits h) = v := Option.some.inj hs
        exact hle
      · exact absurd hv (by simp [decode_header, hn, hle])
    · exact absurd hv (by simp [decode_header, hn])
  · intro h hn
    simp [decode_header, hn]
  · intro h hlt
    have hnle : ¬ parseDigits (headerDigits h) ≤ max_body_length := by omega
    by_cases hn : isNumericHeader h <;> simp [decode_header, hn, hnle]

/-- C7 witness: the boundary length `max_body_length = 512` round-trips. -/
theorem C7_witness : decode_header (encode_header 512) = some 512 :=
  C7_codec_roundtrip.1 512 (by decide)
/-- C8 counterexample: the server `main` accepts several port arguments and
constructs one `ChatServer` — hence one `ChatRoom` — per port, so a process
started as `server 2000 2001` holds two Room instances, not one: connections
accepted on the two ports join different rooms. -/
theorem C8_counterexample :
    roomsInProcess [2000, 2001] = 2 ∧ roomsInProcess [2000, 2001] ≠ 1 := by
  decide

/-- C8 amended: a server process contains exactly one Room instance per
`ChatServer`, i.e. one per port argument (so exactly one when started with a
single port), and every connection accepted by a given `ChatServer` joins
that server's single shared room, whatever the connection. -/
theorem C8_one_room_per_server (ports : List Nat) (p : Nat) (sv : ChatServerM)
    (c1 c2 : Nat) :
    roomsInProcess ports = ports.length
    ∧ roomsInProcess [p] = 1
    ∧ acceptedSessionRoom sv c1 = acceptedSessionRoom sv c2 := by
  refine ⟨?_, rfl, rfl⟩
  simp [roomsInProcess, serverMain]

/-- C9: every frame the client console loop constructs is valid by
construction: the message's `body_length` equals the stored line's length,
the console read stores at most `max_body_length` characters, so the length
is within bound and the encoded header is one the server's `decode_header`
accepts (returning exactly that length, never an oversize rejection). -/
theorem C9_client_frames_valid (input : List Nat) :
    (clientBuildMsg input).body_length = (clientReadLine input).length
    ∧ (clientBuildMsg input).body_length ≤ max_body_length
    ∧ decode_header (encode_header (clientBuildMsg input).body_length)
        = some (clientBuildMsg input).body_length := by
  have hlen : (clientBuildMsg input).body_length ≤ max_body_length := by
    show (clientReadLine input).length ≤ max_body_length
    rw [clientReadLine, List.length_take]
    omega
  exact ⟨rfl, hlen, decode_encode_all _ hlen⟩

/-- C10: `join` and `leave` touch only the participant set, never
`recent_msgs_`; `leave` is idempotent and a no-op on a non-member; and their
effect on the set is exactly insertion / erasure. -/
theorem C10_join_leave_frame (r : ChatRoom) (p : Nat) :
    (ChatRoom.join r p).1.recent_msgs = r.recent_msgs
    ∧ (ChatRoom.leave r p).recent_msgs = r.recent_msgs
    ∧ ChatRoom.leave (ChatRoom.leave r p) p = ChatRoom.leave r p
    ∧ (p ∉ r.participants → ChatRoom.leave r p = r)
    ∧ (ChatRoom.join r p).1.participants = insert p r.participants
    ∧ (ChatRoom.leave r p).participants = r.participants.erase p := by
  refine ⟨rfl, rfl, ?_, ?_, rfl, rfl⟩
  · unfold ChatRoom.leave
    simp [Finset.erase_idem]
  · intro hp
    unfold ChatRoom.leave
    rw [Finset.erase_eq_of_not_mem hp]

/-- C10 witness: leaving the room `w1room`, which participant 5 never
joined, leaves the room unchanged. -/
theorem C10_witness : ChatRoom.leave w1room 5 = w1room :=
  (C10_join_leave_frame w1room 5).2.2.2.1 (by decide)
